import Mathlib

/-!
Verification of the inbound-aggregation and turn-orchestration pipeline of a
WhatsApp assistant service written in Go.  The Go sources are shallowly
embedded: pure string manipulation becomes Lean functions on `String` /
`List Char`, the per-sender debounce buffer becomes explicit state passing
with an abstract discrete clock, HTTP calls become oracle functions
`Nat → HTTPResult`, and the database becomes a list of rows.

The file is organised as definitions first (one namespace per Go package /
revision), then all theorems.
-/

set_option linter.unusedVariables false

/-! ## Shared string helpers (embedding of the Go `strings` operations used) -/

/-- ASCII whitespace test, embedding the whitespace classes relevant to
`strings.TrimSpace` for the inputs handled here (space, tab, LF, CR). -/
def isSpaceChar (c : Char) : Bool :=
  c = Char.ofNat 32 || c = Char.ofNat 9 || c = Char.ofNat 10 || c = Char.ofNat 13

/-- Embedding of Go `strings.TrimSpace`. -/
def trimSpace (s : String) : String :=
  String.mk (((s.toList.dropWhile isSpaceChar).reverse.dropWhile isSpaceChar).reverse)

/-- Embedding of Go `strings.ToLower` (ASCII). -/
def toLowerStr (s : String) : String :=
  String.mk (s.toList.map Char.toLower)

/-- Embedding of Go `strings.Join`. -/
def joinWith (sep : String) : List String → String
  | [] => ""
  | [x] => x
  | x :: y :: xs => x ++ sep ++ joinWith sep (y :: xs)

/-- `internal/buffer/buffer.go` `flush`: the combined text handed to the flush
callback, `"Mensagens recentes do usuário:\n- " + strings.Join(msgs, "\n- ")`. -/
def combineMsgs (msgs : List String) : String :=
  "Mensagens recentes do usuário:\n- " ++ joinWith "\n- " msgs

/-- The consecutive-dedupe append from `Manager.AddMessage`:
append `x` unless it equals the last buffered fragment. -/
def dedupeAppend (acc : List String) (x : String) : List String :=
  match acc.getLast? with
  | some m => if m = x then acc else acc ++ [x]
  | none => [x]

/-- Collapse consecutive exact duplicates, keeping first occurrences:
the specification-level description of the buffered fragment list. -/
def collapseFrom (prev : String) : List String → List String
  | [] => []
  | x :: xs => if x = prev then collapseFrom prev xs else x :: collapseFrom x xs

/-- Collapse consecutive exact duplicates of a whole list. -/
def dedupeConsec : List String → List String
  | [] => []
  | x :: xs => x :: collapseFrom x xs

/-- Last element of a list, with a default for the empty list. -/
def lastOr (m : String) : List String → String
  | [] => m
  | x :: xs => lastOr x xs

/-! ## `internal/buffer/buffer.go` (current revision): per-sender debounce buffer

One sender's buffer holds the pending fragments and the armed timer.  Time is
an abstract discrete clock; the single-shot timer is modelled by its absolute
deadline.  `AddMessage` trims, drops whitespace-only fragments, appends with
consecutive dedupe, and re-arms the sliding timer (`timer.Reset(m.timeout)`),
i.e. sets the deadline to `now + window`. -/

namespace BufferV1

structure BufState where
  msgs : List String
  deadline : Option Nat
deriving Repr, DecidableEq

/-- `Manager.AddMessage` for one sender, at clock time `t` with window `w`. -/
def addMessage (w t : Nat) (s : BufState) (text : String) : BufState :=
  let normalized := trimSpace text
  if normalized = "" then s
  else { msgs := dedupeAppend s.msgs normalized, deadline := some (t + w) }

/-- A trace of one sender's buffer: current state plus the fragment lists of
all flushes fired so far (`Manager.flush` invokes the callback only when the
drained list is non-empty, and afterwards deletes the map entry, which for a
single sender amounts to resetting the state). -/
structure Trace where
  buf : BufState
  flushes : List (List String)
deriving Repr, DecidableEq

/-- The armed timer fires: `Manager.flush` drains the fragments, clears the
timer, invokes the callback when non-empty, and deletes the sender's entry. -/
def fire (tr : Trace) : Trace :=
  { buf := { msgs := [], deadline := none },
    flushes := if tr.buf.msgs.isEmpty then tr.flushes else tr.flushes ++ [tr.buf.msgs] }

/-- Process one arrival `(t, text)`: if the armed deadline has already passed,
the timer fires first; then `AddMessage` runs at time `t`. -/
def stepArrival (w : Nat) (tr : Trace) (a : Nat × String) : Trace :=
  let tr1 :=
    match tr.buf.deadline with
    | some d => if d ≤ a.1 then fire tr else tr
    | none => tr
  { tr1 with buf := addMessage w a.1 tr1.buf a.2 }

/-- After the last arrival, let any armed timer fire. -/
def finish (tr : Trace) : Trace :=
  match tr.buf.deadline with
  | some _ => fire tr
  | none => tr

/-- Run a whole burst of arrivals for one sender from an empty buffer. -/
def runBurst (w : Nat) (arrivals : List (Nat × String)) : Trace :=
  finish (arrivals.foldl (stepArrival w) ⟨⟨[], none⟩, []⟩)

/-- Each arrival comes strictly within the inactivity window of the previous
one. -/
def withinWindow (w : Nat) : Nat → List (Nat × String) → Prop
  | _, [] => True
  | tprev, a :: rest => a.1 < tprev + w ∧ withinWindow w a.1 rest

/-- Time of the last arrival. -/
def lastTime (t : Nat) : List (Nat × String) → Nat
  | [] => t
  | a :: rest => lastTime a.1 rest

end BufferV1

/-! ## `internal/buffer/buffer.go`, generation-counter revision (`part_005`)

The buffer additionally stores `lastKind` and a generation counter `gen`; the
armed timer captures the generation current when it was scheduled
(`timerGen`).  The manager's `map[string]*buffer` is an association list.
`flushIfCurrent` is split at its mutex boundaries into `flushPhase1` (the
critical section that checks the generation and drains the fields — the map
entry is still present when it returns) and `flushPhase2` (the final
`delete(m.buffers, phone)`), with the callback invoked in between. -/

namespace BufferGen

structure BufState where
  msgs : List String
  lastKind : String
  timerGen : Option Nat
  gen : Nat
deriving Repr, DecidableEq

/-- Association-list embedding of the Go `map[string]*buffer`. -/
def Buffers : Type := List (String × BufState)

instance : DecidableEq Buffers := by
  unfold Buffers
  infer_instance

def lookup : List (String × BufState) → String → Option BufState
  | [], _ => none
  | (p, b) :: rest, phone => if p = phone then some b else lookup rest phone

/-- Map update: replace the entry for `phone` or append a new one. -/
def update (phone : String) (b : BufState) :
    List (String × BufState) → List (String × BufState)
  | [] => [(phone, b)]
  | (p, b0) :: rest =>
    if p = phone then (phone, b) :: rest else (p, b0) :: update phone b rest

/-- Map deletion (`delete(m.buffers, phone)`). -/
def erase (phone : String) : List (String × BufState) → List (String × BufState)
  | [] => []
  | (p, b0) :: rest => if p = phone then erase phone rest else (p, b0) :: erase phone rest

/-- `Manager.AddMessage(phone, text, kind)`: trim, drop when empty, dedupe
append, record lowercased kind, bump the generation and arm a timer capturing
the new generation. -/
def addMessage (st : List (String × BufState)) (phone text kind : String) :
    List (String × BufState) :=
  let normalized := trimSpace text
  if normalized = "" then st
  else
    let buf := (lookup st phone).getD ⟨[], "", none, 0⟩
    let g := buf.gen + 1
    update phone ⟨dedupeAppend buf.msgs normalized, toLowerStr (trimSpace kind), some g, g⟩ st

/-- First half of `Manager.flushIfCurrent`: under the buffer lock, return
without effect when the entry is missing or `genAtSchedule` is stale;
otherwise drain `msgs`/`lastKind`, clear the timer handle, and hand back the
state as it is when the callback starts (entry still in the map). -/
def flushPhase1 (st : List (String × BufState)) (phone : String) (genAtSchedule : Nat) :
    Option (List (String × BufState) × List String × String) :=
  match lookup st phone with
  | none => none
  | some buf =>
    if genAtSchedule ≠ buf.gen then none
    else some (update phone ⟨[], "", none, buf.gen⟩ st, buf.msgs, buf.lastKind)

/-- Second half of `Manager.flushIfCurrent`: after the callback returns,
`delete(m.buffers, phone)`. -/
def flushPhase2 (st : List (String × BufState)) (phone : String) :
    List (String × BufState) :=
  erase phone st

/-- Whole `Manager.flushIfCurrent`: the pair is the final state and the
callback invocation (combined text, lastKind) when one happens
(`len(msgs) > 0`). -/
def flushIfCurrent (st : List (String × BufState)) (phone : String) (genAtSchedule : Nat) :
    List (String × BufState) × Option (String × String) :=
  match flushPhase1 st phone genAtSchedule with
  | none => (st, none)
  | some (st1, msgs, lk) =>
    (flushPhase2 st1 phone, if msgs.isEmpty then none else some (combineMsgs msgs, lk))

end BufferGen

/-! ## `internal/handlers/webhook.go` (current revision): orchestration

`processCombinedMessage` polls the run status up to 10 attempts (2 s apart)
and, only on `completed`, fetches the reply, records it as an assistant
history row and sends it as text.  `GetRun` returns `("", err)` on error, so a
poll error leaves `status = ""` and breaks the loop.  The observable actions
after `CreateRun` are recorded as a list of effects. -/

namespace Webhook

inductive Effect
  | insertAssistant (typ content : String)
  | sendText (phone content : String)
  | sendMedia (phone mediaType : String)
  | logError (msg : String)
deriving Repr, DecidableEq

/-- The loop's terminal statuses. -/
def runTerminal (s : String) : Bool :=
  s = "completed" || s = "failed" || s = "expired"

/-- The polling loop with `fuel` iterations left; `status` is the value the
loop variable holds entering the iteration. -/
def pollGo (getRun : Nat → Except String String) : Nat → String → String
  | 0, status => status
  | Nat.succ k, _ =>
    match getRun (10 - Nat.succ k) with
    | .error _ => ""
    | .ok s => if runTerminal s then s else pollGo getRun k s

/-- `for i := 0; i < 10; i++ { status, err = GetRun(...) ... }`. -/
def pollRun (getRun : Nat → Except String String) : String :=
  pollGo getRun 10 ""

/-- The tail of `processCombinedMessage` after `CreateRun`: poll, then on
`completed` fetch the latest assistant reply, insert the assistant history
row and send the reply as text; everything else is logged only. -/
def afterRun (phone : String) (getRun : Nat → Except String String)
    (fetchReply : Except String String) : List Effect :=
  let status := pollRun getRun
  if status ≠ "completed" then [.logError ("run not completed: " ++ status)]
  else
    match fetchReply with
    | .error e => [.logError ("openai get message error: " ++ e)]
    | .ok reply => [.insertAssistant "text" reply, .sendText phone reply]

/-- Reply dispatch of the synchronous revision (`part_008` `ServeHTTP`): when
the inbound message's normalized kind is `"audio"`, synthesize speech and
send it as media of kind `"audio"`; otherwise insert and send text.
`genSpeech` is the `GenerateSpeech` oracle. -/
def dispatchReply8 (phone msgType reply : String)
    (genSpeech : Except String (List Nat)) : List Effect :=
  if msgType = "audio" then
    match genSpeech with
    | .error e => [.logError ("tts error: " ++ e)]
    | .ok _ => [.insertAssistant "audio" reply, .sendMedia phone "audio"]
  else [.insertAssistant "text" reply, .sendText phone reply]

end Webhook

/-! ## `internal/uazapi/uazapi.go`: resilient gateway client

HTTP attempts are an oracle `att : Nat → HTTPResult` (1-indexed attempt
number for one route).  `doJSONWithRetry` is embedded together with its
observable schedule: the number of attempts made and the backoff multipliers
slept (`c.backoff * try` before retry number `try + 1`). -/

namespace Uazapi

/-- A Go `error` as far as `isRetryableNetErr` inspects it: whether it
unwraps to a `net.Error` (with its `Timeout()`/`Temporary()` results) and its
message text. -/
structure GoError where
  isNet : Bool
  timeout : Bool
  temporary : Bool
  msg : String
deriving Repr, DecidableEq

/-- Does `pat` occur at the start of `cs`? -/
def startsWithChars : List Char → List Char → Bool
  | [], _ => true
  | _ :: _, [] => false
  | p :: ps, c :: cs => p = c && startsWithChars ps cs

/-- Substring occurrence test (embedding of `strings.Contains`). -/
def listContainsSub : List Char → List Char → Bool
  | _, [] => true
  | [], _ :: _ => false
  | c :: cs, p :: ps => startsWithChars (p :: ps) (c :: cs) || listContainsSub cs (p :: ps)

def containsSub (s pat : String) : Bool :=
  listContainsSub s.toList pat.toList

/-- `isRetryableNetErr`: a `net.Error` is retryable when `Timeout()` or
`Temporary()`; otherwise the lowercased message is scanned for the transient
failure markers. -/
def isRetryableNetErr (e : GoError) : Bool :=
  if e.isNet then e.timeout || e.temporary
  else
    let s := toLowerStr e.msg
    containsSub s "connection reset" || containsSub s "connection refused" ||
      containsSub s "broken pipe" || containsSub s "unexpected eof"

inductive HTTPResult
  | netErr (e : GoError)
  | resp (code : Nat) (body : String)
deriving Repr, DecidableEq

inductive RetryOutcome
  | fail (e : GoError)
  | done (code : Nat) (body : String)
deriving Repr, DecidableEq

/-- Result of `doJSONWithRetry` plus its observable schedule: total attempts
made and the linear backoff multipliers slept between attempts. -/
structure RetryTrace where
  outcome : RetryOutcome
  attempts : Nat
  sleeps : List Nat
deriving Repr, DecidableEq

/-- The retry loop of `doJSONWithRetry`, entered at attempt number `k` with
`fuel` retries still allowed: 2xx returns; retryable network errors and 5xx
retry (sleeping `backoff * k`) while fuel remains; any other response
returns.  The loop guard `try <= c.maxRetries` is re-expressed as
`fuel = maxRetries + 1 - try > 0`, which decrements exactly when `try`
increments. -/
def doRetryAux (att : Nat → HTTPResult) : Nat → Nat → RetryTrace
  | fuel, k =>
    match att k with
    | .netErr e =>
      match fuel with
      | 0 => ⟨.fail e, 1, []⟩
      | fuel2 + 1 =>
        if isRetryableNetErr e then
          let r := doRetryAux att fuel2 (k + 1)
          ⟨r.outcome, r.attempts + 1, k :: r.sleeps⟩
        else ⟨.fail e, 1, []⟩
    | .resp code body =>
      if 200 ≤ code ∧ code < 300 then ⟨.done code body, 1, []⟩
      else
        match fuel with
        | 0 => ⟨.done code body, 1, []⟩
        | fuel2 + 1 =>
          if 500 ≤ code ∧ code ≤ 599 then
            let r := doRetryAux att fuel2 (k + 1)
            ⟨r.outcome, r.attempts + 1, k :: r.sleeps⟩
          else ⟨.done code body, 1, []⟩

/-- `doJSONWithRetry` with `maxRetries = m`, starting at attempt 1 (so `m`
retries remain). -/
def doJSONWithRetry (m : Nat) (att : Nat → HTTPResult) : RetryTrace :=
  doRetryAux att m 1

/-- Result of `SendText`/`SendTextWithDelay`: success, the last network
error, or the formatted `uazapi send text %d: %s` error. -/
inductive SendOutcome
  | ok
  | errNet (e : GoError)
  | errFmt (msg : String)
deriving Repr, DecidableEq

/-- The `lastCode/lastBody/lastErr` triple carried through the route loop. -/
structure LastState where
  code : Nat
  body : String
  err : Option GoError
deriving Repr, DecidableEq

/-- Did this route's retried request end in a 2xx? -/
def succeeded (r : RetryTrace) : Bool :=
  match r.outcome with
  | .done code _ => decide (200 ≤ code ∧ code < 300)
  | .fail _ => false

/-- The candidate-route loop of `SendTextWithDelay`; also returns the routes
attempted, in order.  `respond p` is the attempt oracle for route `p`. -/
def sendTextLoop (m : Nat) (respond : String → Nat → HTTPResult) :
    List String → LastState → SendOutcome × List String
  | [], info =>
    (match info.err with
     | some e => .errNet e
     | none => .errFmt ("uazapi send text " ++ toString info.code ++ ": " ++ info.body),
     [])
  | p :: ps, info =>
    let r := doJSONWithRetry m (respond p)
    match r.outcome with
    | .done code body =>
      if 200 ≤ code ∧ code < 300 then (.ok, [p])
      else
        let rec2 := sendTextLoop m respond ps ⟨code, body, none⟩
        (rec2.1, p :: rec2.2)
    | .fail e =>
      let rec2 := sendTextLoop m respond ps ⟨0, "", some e⟩
      (rec2.1, p :: rec2.2)

/-- `SendText` (via `SendTextWithDelay` with delay 0) over a candidate route
list. -/
def sendText (m : Nat) (respond : String → Nat → HTTPResult) (paths : List String) :
    SendOutcome × List String :=
  sendTextLoop m respond paths ⟨0, "", none⟩

/-- `defaultTextPaths`, in declared priority order. -/
def defaultTextPaths : List String :=
  ["/send/text", "/api/send/text", "/send-text", "/api/send-text",
   "/message/text", "/api/message/text", "/messages/text", "/api/messages/text"]

end Uazapi

/-! ## `internal/handlers/webhook.go`: sender-identity extraction

`extractPhoneFromJID` trims and matches
`^(\d+)(?:@s\.whatsapp\.net|@c\.us|@g\.us|@newsletter)$`.  Since none of the
four suffix literals begins with a digit, the regex match is equivalent to:
the maximal leading digit run is non-empty and the remainder is exactly one
of the suffixes. -/

namespace Handlers

def jidSuffixes : List String :=
  ["@s.whatsapp.net", "@c.us", "@g.us", "@newsletter"]

/-- The anchored regex match (on an already-trimmed string). -/
def extractCore (j : String) : Option String :=
  let cs := j.toList
  let pre := cs.takeWhile Char.isDigit
  let rest := cs.drop pre.length
  if pre ≠ [] ∧ jidSuffixes.contains (String.mk rest) then some (String.mk pre) else none

/-- `extractPhoneFromJID` (`none` embeds the `("", false)` return). -/
def extractPhoneFromJID (jid : String) : Option String :=
  extractCore (trimSpace jid)

end Handlers

/-! ## `internal/models/models.go`: persistence of the conversation handle

The `clients` table is a list of rows; `SetClientThread` embeds
`UPDATE clients SET thread_id=$1 WHERE id=$2` with its rows-affected check. -/

namespace Models

structure ClientRow where
  id : Nat
  phone : String
  name : Option String
  threadID : Option String
deriving Repr, DecidableEq

/-- `SetClientThread`: unconditional update of `thread_id` for the matching
row; `"client not found"` when no row matches. -/
def SetClientThread (db : List ClientRow) (clientID : Nat) (tid : String) :
    Except String (List ClientRow) :=
  if db.any (fun c => c.id = clientID) then
    .ok (db.map fun c => if c.id = clientID then { c with threadID := some tid } else c)
  else .error "client not found"

/-- The thread-ensuring step of `processCombinedMessage`: use the stored
handle when visible and non-empty, otherwise adopt the freshly minted one
(the Bool records whether `SetClientThread` is called). -/
def ensureThread (existing : Option String) (minted : String) : String × Bool :=
  match existing with
  | some t => if t ≠ "" then (t, false) else (minted, true)
  | none => (minted, true)

end Models

/-! ## Theorems: consecutive-duplicate collapsing -/

theorem dedupeAppend_ne_nil (acc : List String) (x : String) :
    dedupeAppend acc x ≠ [] := by
  unfold dedupeAppend
  cases h : acc.getLast? with
  | none => simp
  | some m =>
    have : acc ≠ [] := by
      intro hnil
      rw [hnil] at h
      simp at h
    by_cases hmx : m = x <;> simp [hmx, this]

theorem getLast?_cons_collapseFrom (y : String) (ys : List String) :
    (y :: collapseFrom y ys).getLast? = some (lastOr y ys) := by
  induction ys generalizing y with
  | nil => simp [collapseFrom, lastOr]
  | cons z zs ih =>
    by_cases hzy : z = y
    · subst hzy
      simp [collapseFrom, lastOr, ih z]
    · simp [collapseFrom, hzy, lastOr, List.getLast?_cons_cons, ih z]

theorem collapseFrom_append_single (m x : String) (l : List String) :
    collapseFrom m (l ++ [x]) =
      if x = lastOr m l then collapseFrom m l else collapseFrom m l ++ [x] := by
  induction l generalizing m with
  | nil => by_cases hxm : x = m <;> simp [collapseFrom, lastOr, hxm]
  | cons y ys ih =>
    by_cases hym : y = m
    · subst hym
      have hL : collapseFrom y ((y :: ys) ++ [x]) = collapseFrom y (ys ++ [x]) := by
        simp [collapseFrom]
      rw [hL, ih y]
      simp [collapseFrom, lastOr]
    · have hL : collapseFrom m ((y :: ys) ++ [x]) = y :: collapseFrom y (ys ++ [x]) := by
        simp [collapseFrom, hym]
      rw [hL, ih y]
      by_cases hx : x = lastOr y ys <;> simp [collapseFrom, lastOr, hym, hx]

theorem dedupeConsec_append_single (l : List String) (x : String) :
    dedupeConsec (l ++ [x]) = dedupeAppend (dedupeConsec l) x := by
  cases l with
  | nil => simp [dedupeConsec, collapseFrom, dedupeAppend]
  | cons y ys =>
    have h1 : dedupeConsec ((y :: ys) ++ [x]) = y :: collapseFrom y (ys ++ [x]) := by
      simp [dedupeConsec]
    have h2 : dedupeConsec (y :: ys) = y :: collapseFrom y ys := by
      simp [dedupeConsec]
    rw [h1, h2, collapseFrom_append_single]
    unfold dedupeAppend
    rw [getLast?_cons_collapseFrom]
    by_cases hx : x = lastOr y ys
    · simp [hx]
    · have hx2 : ¬ lastOr y ys = x := fun h => hx h.symm
      simp [hx, hx2]

theorem foldl_dedupeAppend_eq_dedupeConsec (l m : List String) :
    l.foldl dedupeAppend (dedupeConsec m) = dedupeConsec (m ++ l) := by
  induction l generalizing m with
  | nil => simp
  | cons x xs ih =>
    rw [List.foldl_cons, ← dedupeConsec_append_single, ih (m ++ [x])]
    simp

theorem foldl_dedupeAppend_nil (l : List String) :
    l.foldl dedupeAppend [] = dedupeConsec l := by
  have h := foldl_dedupeAppend_eq_dedupeConsec l []
  simpa [dedupeConsec] using h

/-! ## Theorems: the debounce buffer flushes a within-window burst once -/

theorem foldl_dedupeAppend_ne_nil (l : List (Nat × String)) (msgs : List String)
    (h : msgs ≠ []) :
    l.foldl (fun acc a => dedupeAppend acc (trimSpace a.2)) msgs ≠ [] := by
  induction l generalizing msgs with
  | nil => simpa using h
  | cons a rest ih =>
    simpa using ih (dedupeAppend msgs (trimSpace a.2)) (dedupeAppend_ne_nil _ _)

theorem foldl_stepArrival_within (w : Nat) (rest : List (Nat × String)) :
    ∀ (tprev : Nat) (msgs : List String) (fl : List (List String)),
      (∀ a ∈ rest, trimSpace a.2 ≠ "") →
      BufferV1.withinWindow w tprev rest →
      rest.foldl (BufferV1.stepArrival w) ⟨⟨msgs, some (tprev + w)⟩, fl⟩ =
        ⟨⟨rest.foldl (fun acc a => dedupeAppend acc (trimSpace a.2)) msgs,
          some (BufferV1.lastTime tprev rest + w)⟩, fl⟩ := by
  induction rest with
  | nil => intro tprev msgs fl _ _; rfl
  | cons a rest ih =>
    intro tprev msgs fl hne hwin
    have ha : trimSpace a.2 ≠ "" := hne a (by simp)
    have hlt : a.1 < tprev + w := hwin.1
    have hstep :
        BufferV1.stepArrival w ⟨⟨msgs, some (tprev + w)⟩, fl⟩ a =
          ⟨⟨dedupeAppend msgs (trimSpace a.2), some (a.1 + w)⟩, fl⟩ := by
      simp [BufferV1.stepArrival, Nat.not_le.mpr hlt, BufferV1.addMessage, ha]
    rw [List.foldl_cons, hstep,
      ih a.1 (dedupeAppend msgs (trimSpace a.2)) fl (fun b hb => hne b (by simp [hb])) hwin.2]
    simp [BufferV1.lastTime]

/-- Core single-flush property of a within-window burst: exactly one flush,
whose fragment list is the trimmed arrivals with consecutive duplicates
collapsed. -/
theorem runBurst_flushes (w : Nat) (a0 : Nat × String) (rest : List (Nat × String))
    (h0 : trimSpace a0.2 ≠ "") (hrest : ∀ a ∈ rest, trimSpace a.2 ≠ "")
    (hwin : BufferV1.withinWindow w a0.1 rest) :
    (BufferV1.runBurst w (a0 :: rest)).flushes =
      [dedupeConsec ((a0 :: rest).map (fun a => trimSpace a.2))] := by
  have hfirst :
      BufferV1.stepArrival w ⟨⟨[], none⟩, []⟩ a0 =
        ⟨⟨[trimSpace a0.2], some (a0.1 + w)⟩, []⟩ := by
    simp [BufferV1.stepArrival, BufferV1.addMessage, h0, dedupeAppend]
  have hfold := foldl_stepArrival_within w rest a0.1 [trimSpace a0.2] [] hrest hwin
  have hmsgs :
      rest.foldl (fun acc a => dedupeAppend acc (trimSpace a.2)) [trimSpace a0.2] =
        dedupeConsec ((a0 :: rest).map (fun a => trimSpace a.2)) := by
    have h1 : ([trimSpace a0.2] : List String) = dedupeAppend [] (trimSpace a0.2) := by
      simp [dedupeAppend]
    have h2 :
        rest.foldl (fun acc a => dedupeAppend acc (trimSpace a.2))
            (dedupeAppend [] (trimSpace a0.2)) =
          ((a0 :: rest).map (fun a => trimSpace a.2)).foldl dedupeAppend [] := by
      simp [List.foldl_map]
    rw [h1, h2, foldl_dedupeAppend_nil]
  unfold BufferV1.runBurst
  rw [List.foldl_cons, hfirst, hfold]
  simp [BufferV1.finish, BufferV1.fire, hmsgs, dedupeConsec]

/-! ## Claim C1 -/

/-- C1, counterexample to the concrete part: the burst `"ok"`, `"ok"` within
the window produces exactly one flush whose (collapsed) fragment list is
`["ok"]`, but the merged turn text handed to the callback is
`"Mensagens recentes do usuário:\n- ok"`, not `"ok"`. -/
theorem c1_merged_turn_text_cex :
    (BufferV1.runBurst 10 [(0, "ok"), (1, "ok")]).flushes = [["ok"]] ∧
    combineMsgs ["ok"] = "Mensagens recentes do usuário:\n- ok" ∧
    combineMsgs ["ok"] ≠ "ok" := by
  decide

/-- C1 (amended): for every burst of N ≥ 1 fragments that are non-empty
after trimming, each arriving strictly within the inactivity window of the
previous one, exactly one flush occurs and it contains all N fragments in
arrival order with consecutive exact duplicates collapsed; for the burst
`"ok"`, `"ok"` the single flush's fragment list is `["ok"]` and the merged
turn text is `"Mensagens recentes do usuário:\n- ok"` (a header plus
list-item prefix, not the bare string `"ok"`). -/
theorem c1_single_flush_collapsed :
    (∀ (w : Nat) (a0 : Nat × String) (rest : List (Nat × String)),
        trimSpace a0.2 ≠ "" → (∀ a ∈ rest, trimSpace a.2 ≠ "") →
        BufferV1.withinWindow w a0.1 rest →
        (BufferV1.runBurst w (a0 :: rest)).flushes =
          [dedupeConsec ((a0 :: rest).map (fun a => trimSpace a.2))]) ∧
    (BufferV1.runBurst 10 [(0, "ok"), (1, "ok")]).flushes = [["ok"]] ∧
    combineMsgs ["ok"] = "Mensagens recentes do usuário:\n- ok" := by
  exact ⟨runBurst_flushes, by decide, by decide⟩

/-- C1 witness: the general part of `c1_single_flush_collapsed` applied to
the concrete two-fragment burst. -/
theorem c1_single_flush_collapsed_witness :
    (BufferV1.runBurst 10 [((0 : Nat), "ok"), ((1 : Nat), "ok")]).flushes =
      [dedupeConsec (([((0 : Nat), "ok"), ((1 : Nat), "ok")]).map (fun a => trimSpace a.2))] :=
  c1_single_flush_collapsed.1 10 (0, "ok") [(1, "ok")] (by decide)
    (by decide) ⟨by norm_num, trivial⟩

/-! ## Claim C2 -/

/-- C2, counterexample to the exact merged text: the burst `"Hi"`, `"  "`,
`"are you open?"` flushes the fragment list `["Hi", "are you open?"]` (blank
dropped), but the merged turn text is not `"Hi\nare you open?"`. -/
theorem c2_exact_join_cex :
    (BufferV1.runBurst 10 [(0, "Hi"), (1, "  "), (2, "are you open?")]).flushes =
      [["Hi", "are you open?"]] ∧
    combineMsgs ["Hi", "are you open?"] ≠ "Hi\nare you open?" := by
  decide

/-- C2 (amended): `AddMessage` trims every fragment, drops whitespace-only
fragments, and otherwise appends the trimmed fragment (with consecutive
dedupe) while re-arming the timer; the flushed turn is the remaining
fragments joined by `"\n- "` behind the header
`"Mensagens recentes do usuário:\n- "`.  Concretely the burst `"Hi"`,
`"  "`, `"are you open?"` yields the merged turn text
`"Mensagens recentes do usuário:\n- Hi\n- are you open?"`. -/
theorem c2_trim_drop_join :
    (∀ (w t : Nat) (s : BufferV1.BufState) (text : String),
        trimSpace text = "" → BufferV1.addMessage w t s text = s) ∧
    (∀ (w t : Nat) (s : BufferV1.BufState) (text : String),
        trimSpace text ≠ "" →
        BufferV1.addMessage w t s text =
          ⟨dedupeAppend s.msgs (trimSpace text), some (t + w)⟩) ∧
    (BufferV1.runBurst 10 [(0, "Hi"), (1, "  "), (2, "are you open?")]).flushes =
      [["Hi", "are you open?"]] ∧
    combineMsgs ["Hi", "are you open?"] =
      "Mensagens recentes do usuário:\n- Hi\n- are you open?" := by
  refine ⟨?_, ?_, by decide, by decide⟩
  · intro w t s text h
    simp [BufferV1.addMessage, h]
  · intro w t s text h
    simp [BufferV1.addMessage, h]

/-- C2 witness: the drop-when-blank part of `c2_trim_drop_join` applied to a
whitespace-only fragment. -/
theorem c2_trim_drop_join_witness :
    BufferV1.addMessage 10 5 ⟨["Hi"], some 10⟩ "   " = ⟨["Hi"], some 10⟩ :=
  c2_trim_drop_join.1 10 5 ⟨["Hi"], some 10⟩ "   " (by decide)

/-! ## Theorems: generation-counter buffer map -/

theorem lookup_update_self (st : List (String × BufferGen.BufState))
    (phone : String) (b : BufferGen.BufState) :
    BufferGen.lookup (BufferGen.update phone b st) phone = some b := by
  induction st with
  | nil => simp [BufferGen.update, BufferGen.lookup]
  | cons hd rest ih =>
    by_cases hp : hd.1 = phone
    · simp [BufferGen.update, hp, BufferGen.lookup]
    · simp [BufferGen.update, hp, BufferGen.lookup, ih]

theorem lookup_erase_self (st : List (String × BufferGen.BufState)) (phone : String) :
    BufferGen.lookup (BufferGen.erase phone st) phone = none := by
  induction st with
  | nil => simp [BufferGen.erase, BufferGen.lookup]
  | cons hd rest ih =>
    by_cases hp : hd.1 = phone
    · simp [BufferGen.erase, hp, ih]
    · simp [BufferGen.erase, hp, BufferGen.lookup, ih]

theorem erase_update_self (st : List (String × BufferGen.BufState))
    (phone : String) (b : BufferGen.BufState) :
    BufferGen.erase phone (BufferGen.update phone b st) = BufferGen.erase phone st := by
  induction st with
  | nil => simp [BufferGen.update, BufferGen.erase]
  | cons hd rest ih =>
    by_cases hp : hd.1 = phone
    · simp [BufferGen.update, hp, BufferGen.erase]
    · simp [BufferGen.update, hp, BufferGen.erase, ih]

/-- Inversion of a successful `flushPhase1`. -/
theorem flushPhase1_some (st : List (String × BufferGen.BufState)) (phone : String)
    (g : Nat) (st1 : List (String × BufferGen.BufState)) (msgs : List String) (lk : String)
    (h : BufferGen.flushPhase1 st phone g = some (st1, msgs, lk)) :
    ∃ buf, BufferGen.lookup st phone = some buf ∧ g = buf.gen ∧
      msgs = buf.msgs ∧ lk = buf.lastKind ∧
      st1 = BufferGen.update phone ⟨[], "", none, g⟩ st := by
  unfold BufferGen.flushPhase1 at h
  cases hl : BufferGen.lookup st phone with
  | none => rw [hl] at h; simp at h
  | some buf =>
    rw [hl] at h
    by_cases hg : g ≠ buf.gen
    · simp [hg] at h
    · push_neg at hg
      subst hg
      simp only [reduceCtorEq, ne_eq, not_true_eq_false, if_false, Option.some.injEq,
        Prod.mk.injEq] at h
      obtain ⟨h1, h2, h3⟩ := h
      exact ⟨buf, rfl, rfl, h2.symm, h3.symm, h1.symm⟩

/-! ## Claim C3 -/

/-- C3: a timer-fired `flushIfCurrent(phone, observedGeneration)` is a
no-effect no-op when the entry is missing or the observed generation is
stale; when the generation matches (and the drained fragment list is
non-empty, which holds for every armed timer since `AddMessage` appends
before arming), it removes the sender's entry and yields exactly one
callback invocation with the joined text and lastKind. -/
theorem c3_flush_generation_guard :
    (∀ (st : List (String × BufferGen.BufState)) (phone : String) (g : Nat),
        BufferGen.lookup st phone = none →
        BufferGen.flushIfCurrent st phone g = (st, none)) ∧
    (∀ (st : List (String × BufferGen.BufState)) (phone : String) (g : Nat)
        (buf : BufferGen.BufState),
        BufferGen.lookup st phone = some buf → g ≠ buf.gen →
        BufferGen.flushIfCurrent st phone g = (st, none)) ∧
    (∀ (st : List (String × BufferGen.BufState)) (phone : String) (g : Nat)
        (buf : BufferGen.BufState),
        BufferGen.lookup st phone = some buf → g = buf.gen → buf.msgs ≠ [] →
        BufferGen.flushIfCurrent st phone g =
          (BufferGen.erase phone st, some (combineMsgs buf.msgs, buf.lastKind))) := by
  refine ⟨?_, ?_, ?_⟩
  · intro st phone g h
    simp [BufferGen.flushIfCurrent, BufferGen.flushPhase1, h]
  · intro st phone g buf h hg
    simp [BufferGen.flushIfCurrent, BufferGen.flushPhase1, h, hg]
  · intro st phone g buf h hg hne
    subst hg
    simp [BufferGen.flushIfCurrent, BufferGen.flushPhase1, h, BufferGen.flushPhase2,
      erase_update_self, hne]

/-- C3 witness: one sender with generation 2; a stale fire (observed 1) is a
no-op, the current fire (observed 2) flushes. -/
theorem c3_flush_generation_guard_witness :
    BufferGen.flushIfCurrent [("5511", ⟨["oi"], "audio", some 2, 2⟩)] "5511" 1 =
      ([("5511", ⟨["oi"], "audio", some 2, 2⟩)], none) ∧
    BufferGen.flushIfCurrent [("5511", ⟨["oi"], "audio", some 2, 2⟩)] "5511" 2 =
      ([], some (combineMsgs ["oi"], "audio")) := by
  constructor
  · exact c3_flush_generation_guard.2.1 [("5511", ⟨["oi"], "audio", some 2, 2⟩)] "5511" 1
      ⟨["oi"], "audio", some 2, 2⟩ (by decide) (by decide)
  · have h := c3_flush_generation_guard.2.2 [("5511", ⟨["oi"], "audio", some 2, 2⟩)] "5511" 2
      ⟨["oi"], "audio", some 2, 2⟩ (by decide) rfl (by decide)
    simpa [BufferGen.erase] using h

/-! ## Claim C10 -/

/-- C10 counterexample: starting from the state created by one `AddMessage`,
the flush's critical section (`flushPhase1`, the part that runs before the
callback) leaves the sender's entry in the map — the entry is removed only by
`flushPhase2`, which runs after the callback.  Moreover an `AddMessage`
landing between the two phases mutates the old entry, and `flushPhase2` then
deletes it, so the interleaved fragment is discarded rather than surviving in
an independent new state. -/
theorem c10_delete_after_callback_cex :
    BufferGen.flushPhase1 (BufferGen.addMessage [] "5511" "oi" "text") "5511" 1 =
      some ([("5511", ⟨[], "", none, 1⟩)], ["oi"], "text") ∧
    BufferGen.lookup [("5511", (⟨[], "", none, 1⟩ : BufferGen.BufState))] "5511" ≠ none ∧
    BufferGen.flushPhase2
        (BufferGen.addMessage [("5511", ⟨[], "", none, 1⟩)] "5511" "e o preço?" "text")
        "5511" = [] := by
  decide

/-- C10 (amended): the sender's map entry is removed only after the turn
callback returns: when `flushPhase1` succeeds, the entry is still mapped (with
drained fields) while the callback runs; an `AddMessage` for the same sender
during the in-flight flush mutates that old entry (it does not create an
independent surviving state); and the post-callback `flushPhase2` deletes the
sender's entry outright, discarding any such interleaved fragment. -/
theorem c10_delete_after_callback :
    (∀ (st st1 : List (String × BufferGen.BufState)) (phone : String) (g : Nat)
        (msgs : List String) (lk : String),
        BufferGen.flushPhase1 st phone g = some (st1, msgs, lk) →
        BufferGen.lookup st1 phone = some ⟨[], "", none, g⟩) ∧
    (∀ (st1 : List (String × BufferGen.BufState)) (phone text kind : String) (g : Nat),
        BufferGen.lookup st1 phone = some ⟨[], "", none, g⟩ →
        trimSpace text ≠ "" →
        BufferGen.lookup (BufferGen.addMessage st1 phone text kind) phone =
          some ⟨[trimSpace text], toLowerStr (trimSpace kind), some (g + 1), g + 1⟩) ∧
    (∀ (st2 : List (String × BufferGen.BufState)) (phone : String),
        BufferGen.lookup (BufferGen.flushPhase2 st2 phone) phone = none) := by
  refine ⟨?_, ?_, ?_⟩
  · intro st st1 phone g msgs lk h
    obtain ⟨buf, hl, hg, hm, hk, hst1⟩ := flushPhase1_some st phone g st1 msgs lk h
    rw [hst1, lookup_update_self]
  · intro st1 phone text kind g hl hne
    simp [BufferGen.addMessage, hne, hl, dedupeAppend, lookup_update_self]
  · intro st2 phone
    exact lookup_erase_self st2 phone

/-- C10 witness: the three parts of `c10_delete_after_callback` applied to an
interleaving of one flush and one concurrent `AddMessage`. -/
theorem c10_delete_after_callback_witness :
    BufferGen.lookup [("5511", (⟨[], "", none, 1⟩ : BufferGen.BufState))] "5511" =
      some ⟨[], "", none, 1⟩ ∧
    BufferGen.lookup
        (BufferGen.addMessage [("5511", ⟨[], "", none, 1⟩)] "5511" " e o preço? " "Text")
        "5511" =
      some ⟨[trimSpace " e o preço? "], toLowerStr (trimSpace "Text"), some 2, 2⟩ ∧
    BufferGen.lookup
        (BufferGen.flushPhase2 [("5511", (⟨[], "", none, 1⟩ : BufferGen.BufState))] "5511")
        "5511" = none := by
  refine ⟨?_, ?_, ?_⟩
  · exact c10_delete_after_callback.1 (BufferGen.addMessage [] "5511" "oi" "text")
      [("5511", ⟨[], "", none, 1⟩)] "5511" 1 ["oi"] "text" (by decide)
  · exact c10_delete_after_callback.2.1 [("5511", ⟨[], "", none, 1⟩)] "5511"
      " e o preço? " "Text" 1 (by decide) (by decide)
  · exact c10_delete_after_callback.2.2 [("5511", ⟨[], "", none, 1⟩)] "5511"

/-! ## Claim C4 -/

/-- C4: whenever run-status polling ends in anything but `"completed"` — a
`failed`/`expired` terminal status, a poll error (which leaves the status
empty), or budget exhaustion with the status still `pending` — the turn
produces only an error log: no gateway dispatch and no assistant-role history
record. -/
theorem c4_noncompleted_silent_abort :
    (∀ (phone : String) (getRun : Nat → Except String String)
        (fetchReply : Except String String),
        Webhook.pollRun getRun ≠ "completed" →
        Webhook.afterRun phone getRun fetchReply =
          [Webhook.Effect.logError ("run not completed: " ++ Webhook.pollRun getRun)]) ∧
    Webhook.pollRun (fun _ => Except.ok "pending") = "pending" ∧
    Webhook.pollRun (fun _ => Except.ok "failed") = "failed" ∧
    Webhook.pollRun (fun _ => Except.ok "expired") = "expired" ∧
    Webhook.pollRun (fun _ => Except.error "poll error") = "" := by
  refine ⟨?_, by decide, by decide, by decide, by decide⟩
  intro phone getRun fetchReply h
  simp [Webhook.afterRun, h]

/-- C4 witness: the polling budget exhausts on a permanently `pending` run
and the turn only logs. -/
theorem c4_noncompleted_silent_abort_witness :
    Webhook.afterRun "5511" (fun _ => Except.ok "pending") (Except.ok "olá") =
      [Webhook.Effect.logError
        ("run not completed: " ++ Webhook.pollRun (fun _ => Except.ok "pending"))] :=
  c4_noncompleted_silent_abort.1 "5511" (fun _ => Except.ok "pending")
    (Except.ok "olá") (by decide)

/-! ## Claim C5 -/

/-- C5 counterexample: a turn whose last (and only) fragment has kind
`"audio"` flushes with `lastKind = "audio"`, yet the current pipeline's
`processCombinedMessage` dispatches the reply of any completed turn as a text
message and never as an `"audio"` media message (the flush callback in
`webhook.go` does not even receive a kind). -/
theorem c5_audio_turn_text_dispatch_cex :
    (BufferGen.flushIfCurrent (BufferGen.addMessage [] "5511" "oi" "audio") "5511" 1).2 =
      some ("Mensagens recentes do usuário:\n- oi", "audio") ∧
    Webhook.afterRun "5511" (fun _ => Except.ok "completed") (Except.ok "tudo bem!") =
      [Webhook.Effect.insertAssistant "text" "tudo bem!",
       Webhook.Effect.sendText "5511" "tudo bem!"] ∧
    Webhook.Effect.sendMedia "5511" "audio" ∉
      Webhook.afterRun "5511" (fun _ => Except.ok "completed") (Except.ok "tudo bem!") := by
  decide

/-- C5 (amended): in the current buffered pipeline
(`processCombinedMessage`), every successfully completed turn's reply is
recorded and dispatched as text, regardless of the turn's modality; the
modality-aware dispatch — synthesize speech and send media of kind `"audio"`
when the kind is audio, text otherwise — exists only in the synchronous
per-request revision (`part_008` `ServeHTTP`), keyed on the inbound message's
normalized kind. -/
theorem c5_dispatch_by_revision :
    (∀ (phone reply : String) (getRun : Nat → Except String String),
        Webhook.pollRun getRun = "completed" →
        Webhook.afterRun phone getRun (Except.ok reply) =
          [Webhook.Effect.insertAssistant "text" reply,
           Webhook.Effect.sendText phone reply]) ∧
    (∀ (phone reply : String) (bytes : List Nat),
        Webhook.dispatchReply8 phone "audio" reply (Except.ok bytes) =
          [Webhook.Effect.insertAssistant "audio" reply,
           Webhook.Effect.sendMedia phone "audio"]) ∧
    (∀ (phone msgType reply : String) (gs : Except String (List Nat)),
        msgType ≠ "audio" →
        Webhook.dispatchReply8 phone msgType reply gs =
          [Webhook.Effect.insertAssistant "text" reply,
           Webhook.Effect.sendText phone reply]) := by
  refine ⟨?_, ?_, ?_⟩
  · intro phone reply getRun h
    simp [Webhook.afterRun, h]
  · intro phone reply bytes
    simp [Webhook.dispatchReply8]
  · intro phone msgType reply gs h
    simp [Webhook.dispatchReply8, h]

/-- C5 witness: text dispatch of a completed buffered turn, and both branches
of the synchronous revision's dispatch. -/
theorem c5_dispatch_by_revision_witness :
    Webhook.afterRun "5511" (fun _ => Except.ok "completed") (Except.ok "oi!") =
      [Webhook.Effect.insertAssistant "text" "oi!", Webhook.Effect.sendText "5511" "oi!"] ∧
    Webhook.dispatchReply8 "5511" "audio" "oi!" (Except.ok [1, 2, 3]) =
      [Webhook.Effect.insertAssistant "audio" "oi!",
       Webhook.Effect.sendMedia "5511" "audio"] ∧
    Webhook.dispatchReply8 "5511" "image" "oi!" (Except.error "no tts") =
      [Webhook.Effect.insertAssistant "text" "oi!", Webhook.Effect.sendText "5511" "oi!"] :=
  ⟨c5_dispatch_by_revision.1 "5511" "oi!" (fun _ => Except.ok "completed") (by decide),
   c5_dispatch_by_revision.2.1 "5511" "oi!" [1, 2, 3],
   c5_dispatch_by_revision.2.2 "5511" "image" "oi!" (Except.error "no tts") (by decide)⟩

/-! ## Theorems: uazapi retry loop and candidate-route iteration -/

theorem doRetryAux_resp_other (att : Nat → Uazapi.HTTPResult) (fuel k code : Nat)
    (body : String) (hatt : att k = .resp code body)
    (h2 : ¬ (200 ≤ code ∧ code < 300)) (h5 : ¬ (500 ≤ code ∧ code ≤ 599)) :
    Uazapi.doRetryAux att fuel k = ⟨.done code body, 1, []⟩ := by
  cases fuel <;> simp [Uazapi.doRetryAux, hatt, h2, h5]

theorem doRetryAux_all503 (att : Nat → Uazapi.HTTPResult) (b : String)
    (hatt : ∀ j, att j = .resp 503 b) :
    ∀ (fuel k : Nat),
      Uazapi.doRetryAux att fuel k = ⟨.done 503 b, fuel + 1, List.range' k fuel⟩ := by
  intro fuel
  induction fuel with
  | zero => intro k; simp [Uazapi.doRetryAux, hatt k, List.range']
  | succ fuel2 ih =>
    intro k
    simp [Uazapi.doRetryAux, hatt k, ih (k + 1), List.range']

theorem doJSONWithRetry_503_then_200 (m : Nat) (att : Nat → Uazapi.HTTPResult)
    (b b2 : String) (hm : 1 ≤ m) (h1 : att 1 = .resp 503 b) (h2 : att 2 = .resp 200 b2) :
    Uazapi.doJSONWithRetry m att = ⟨.done 200 b2, 2, [1]⟩ := by
  obtain ⟨m2, rfl⟩ : ∃ m2, m = m2 + 1 := ⟨m - 1, by omega⟩
  simp [Uazapi.doJSONWithRetry, Uazapi.doRetryAux, h1, h2]

theorem doJSONWithRetry_neterr_then_200 (m : Nat) (att : Nat → Uazapi.HTTPResult)
    (e : Uazapi.GoError) (b2 : String) (hm : 1 ≤ m)
    (he : Uazapi.isRetryableNetErr e = true)
    (h1 : att 1 = .netErr e) (h2 : att 2 = .resp 200 b2) :
    Uazapi.doJSONWithRetry m att = ⟨.done 200 b2, 2, [1]⟩ := by
  obtain ⟨m2, rfl⟩ : ∃ m2, m = m2 + 1 := ⟨m - 1, by omega⟩
  simp [Uazapi.doJSONWithRetry, Uazapi.doRetryAux, h1, h2, he]

theorem sendTextLoop_first_success (m : Nat) (respond : String → Nat → Uazapi.HTTPResult)
    (p : String) (post : List String) :
    ∀ (pre : List String) (info : Uazapi.LastState),
      (∀ q ∈ pre, Uazapi.succeeded (Uazapi.doJSONWithRetry m (respond q)) = false) →
      Uazapi.succeeded (Uazapi.doJSONWithRetry m (respond p)) = true →
      Uazapi.sendTextLoop m respond (pre ++ p :: post) info = (.ok, pre ++ [p]) := by
  intro pre
  induction pre with
  | nil =>
    intro info hpre hp
    cases hout : (Uazapi.doJSONWithRetry m (respond p)).outcome with
    | fail e => simp [Uazapi.succeeded, hout] at hp
    | done code body =>
      have h2xx : 200 ≤ code ∧ code < 300 := by
        simpa [Uazapi.succeeded, hout] using hp
      simp [Uazapi.sendTextLoop, hout, h2xx]
  | cons q qs ih =>
    intro info hpre hp
    have hq : Uazapi.succeeded (Uazapi.doJSONWithRetry m (respond q)) = false :=
      hpre q (by simp)
    have hqs : ∀ r ∈ qs, Uazapi.succeeded (Uazapi.doJSONWithRetry m (respond r)) = false :=
      fun r hr => hpre r (by simp [hr])
    cases hout : (Uazapi.doJSONWithRetry m (respond q)).outcome with
    | fail e =>
      simp [Uazapi.sendTextLoop, hout, ih ⟨0, "", some e⟩ hqs hp]
    | done code body =>
      have hno : ¬ (200 ≤ code ∧ code < 300) := by
        intro hc
        rw [show Uazapi.succeeded (Uazapi.doJSONWithRetry m (respond q)) =
              decide (200 ≤ code ∧ code < 300) by simp [Uazapi.succeeded, hout]] at hq
        simp [hc] at hq
      simp [Uazapi.sendTextLoop, hout, hno, ih ⟨code, body, none⟩ hqs hp]

theorem sendTextLoop_all404 (m : Nat) (respond : String → Nat → Uazapi.HTTPResult)
    (bodyOf : String → String) (plast : String) :
    ∀ (pre : List String) (info : Uazapi.LastState),
      (∀ q ∈ pre ++ [plast], ∀ k, respond q k = .resp 404 (bodyOf q)) →
      Uazapi.sendTextLoop m respond (pre ++ [plast]) info =
        (.errFmt ("uazapi send text 404: " ++ bodyOf plast), pre ++ [plast]) := by
  intro pre
  induction pre with
  | nil =>
    intro info h
    have hdo : Uazapi.doJSONWithRetry m (respond plast) = ⟨.done 404 (bodyOf plast), 1, []⟩ :=
      doRetryAux_resp_other (respond plast) m 1 404 (bodyOf plast)
        (h plast (by simp) 1) (by omega) (by omega)
    have hfmt : ("uazapi send text " ++ toString (404 : Nat) ++ ": ") =
        "uazapi send text 404: " := rfl
    simp [Uazapi.sendTextLoop, hdo, hfmt]
  | cons q qs ih =>
    intro info h
    have hdo : Uazapi.doJSONWithRetry m (respond q) = ⟨.done 404 (bodyOf q), 1, []⟩ :=
      doRetryAux_resp_other (respond q) m 1 404 (bodyOf q)
        (h q (by simp) 1) (by omega) (by omega)
    have hrest : ∀ r ∈ qs ++ [plast], ∀ k, respond r k = .resp 404 (bodyOf r) :=
      fun r hr k => h r (by simp at hr ⊢; tauto) k
    simp [Uazapi.sendTextLoop, hdo, ih ⟨404, bodyOf q, none⟩ hrest]

/-! ## Claim C6 -/

/-- C6: `SendText` tries the candidate paths in declared priority order and
stops at the first route whose (retried) request returns a 2xx; and when
every candidate returns 404 on every attempt, the returned error carries
status 404 together with the response body of the last attempted route, and
all candidates were attempted in order. -/
theorem c6_paths_order_404 :
    (∀ (m : Nat) (respond : String → Nat → Uazapi.HTTPResult) (pre post : List String)
        (p : String),
        (∀ q ∈ pre, Uazapi.succeeded (Uazapi.doJSONWithRetry m (respond q)) = false) →
        Uazapi.succeeded (Uazapi.doJSONWithRetry m (respond p)) = true →
        Uazapi.sendText m respond (pre ++ p :: post) = (.ok, pre ++ [p])) ∧
    (∀ (m : Nat) (respond : String → Nat → Uazapi.HTTPResult) (bodyOf : String → String)
        (pre : List String) (plast : String),
        (∀ q ∈ pre ++ [plast], ∀ k, respond q k = .resp 404 (bodyOf q)) →
        Uazapi.sendText m respond (pre ++ [plast]) =
          (.errFmt ("uazapi send text 404: " ++ bodyOf plast), pre ++ [plast])) := by
  constructor
  · intro m respond pre post p hpre hp
    exact sendTextLoop_first_success m respond p post pre ⟨0, "", none⟩ hpre hp
  · intro m respond bodyOf pre plast h
    exact sendTextLoop_all404 m respond bodyOf plast pre ⟨0, "", none⟩ h

/-- C6 witness: over `defaultTextPaths`, iteration stops at the first 2xx
route (the third candidate), and an all-404 gateway produces the formatted
404 error with the last route's body after trying every candidate. -/
theorem c6_paths_order_404_witness :
    Uazapi.sendText 3
        (fun p _ => if p = "/send-text" then .resp 200 "ok" else .resp 404 "nf")
        Uazapi.defaultTextPaths =
      (.ok, ["/send/text", "/api/send/text", "/send-text"]) ∧
    Uazapi.sendText 3 (fun _ _ => .resp 404 "not found") Uazapi.defaultTextPaths =
      (.errFmt ("uazapi send text 404: " ++ "not found"), Uazapi.defaultTextPaths) := by
  constructor
  · have h := c6_paths_order_404.1 3
      (fun p _ => if p = "/send-text" then .resp 200 "ok" else .resp 404 "nf")
      ["/send/text", "/api/send/text"]
      ["/api/send-text", "/message/text", "/api/message/text", "/messages/text",
       "/api/messages/text"]
      "/send-text" (by decide) (by decide)
    simpa [Uazapi.defaultTextPaths] using h
  · have h := c6_paths_order_404.2 3 (fun _ _ => .resp 404 "not found")
      (fun _ => "not found")
      ["/send/text", "/api/send/text", "/send-text", "/api/send-text", "/message/text",
       "/api/message/text", "/messages/text"] "/api/messages/text"
      (fun q hq k => rfl)
    simpa [Uazapi.defaultTextPaths] using h

/-! ## Claim C7 -/

/-- C7: for a single route, a 4xx response is returned after exactly one
attempt with no retry; a 503 (or a retryable network error) followed by a
200 succeeds after one retry with one backoff sleep of multiplier 1, within
the budget whenever `maxRetries ≥ 1`; a persistently-503 route is retried
with linearly increasing backoff multipliers `[1, …, maxRetries]` and gives
up after `maxRetries + 1` attempts; and a 503-then-200 route makes
`SendText` succeed. -/
theorem c7_retry_policy :
    (∀ (m : Nat) (att : Nat → Uazapi.HTTPResult) (code : Nat) (body : String),
        400 ≤ code → code < 500 → att 1 = .resp code body →
        Uazapi.doJSONWithRetry m att = ⟨.done code body, 1, []⟩) ∧
    (∀ (m : Nat) (att : Nat → Uazapi.HTTPResult) (b b2 : String),
        1 ≤ m → att 1 = .resp 503 b → att 2 = .resp 200 b2 →
        Uazapi.doJSONWithRetry m att = ⟨.done 200 b2, 2, [1]⟩) ∧
    (∀ (m : Nat) (att : Nat → Uazapi.HTTPResult) (e : Uazapi.GoError) (b2 : String),
        1 ≤ m → Uazapi.isRetryableNetErr e = true → att 1 = .netErr e →
        att 2 = .resp 200 b2 →
        Uazapi.doJSONWithRetry m att = ⟨.done 200 b2, 2, [1]⟩) ∧
    (∀ (m : Nat) (att : Nat → Uazapi.HTTPResult) (b : String),
        (∀ j, att j = .resp 503 b) →
        Uazapi.doJSONWithRetry m att = ⟨.done 503 b, m + 1, List.range' 1 m⟩) ∧
    (∀ (m : Nat) (respond : String → Nat → Uazapi.HTTPResult) (p b b2 : String),
        1 ≤ m → respond p 1 = .resp 503 b → respond p 2 = .resp 200 b2 →
        Uazapi.sendText m respond [p] = (.ok, [p])) := by
  refine ⟨?_, ?_, ?_, ?_, ?_⟩
  · intro m att code body h4 h5 hatt
    exact doRetryAux_resp_other att m 1 code body hatt (by omega) (by omega)
  · exact doJSONWithRetry_503_then_200
  · exact doJSONWithRetry_neterr_then_200
  · intro m att b hatt
    exact doRetryAux_all503 att b hatt m 1
  · intro m respond p b b2 hm h1 h2
    have hdo := doJSONWithRetry_503_then_200 m (respond p) b b2 hm h1 h2
    simp [Uazapi.sendText, Uazapi.sendTextLoop, hdo]

/-- C7 witness: every part of `c7_retry_policy` applied with `maxRetries = 3`
and concrete attempt oracles. -/
theorem c7_retry_policy_witness :
    Uazapi.doJSONWithRetry 3 (fun _ => .resp 404 "nf") = ⟨.done 404 "nf", 1, []⟩ ∧
    Uazapi.doJSONWithRetry 3
        (fun k => if k = 1 then .resp 503 "unavailable" else .resp 200 "sent") =
      ⟨.done 200 "sent", 2, [1]⟩ ∧
    Uazapi.doJSONWithRetry 3
        (fun k => if k = 1 then .netErr ⟨true, true, false, "timeout"⟩
          else .resp 200 "sent") =
      ⟨.done 200 "sent", 2, [1]⟩ ∧
    Uazapi.doJSONWithRetry 3 (fun _ => .resp 503 "down") =
      ⟨.done 503 "down", 4, List.range' 1 3⟩ ∧
    Uazapi.sendText 3
        (fun _ k => if k = 1 then .resp 503 "unavailable" else .resp 200 "sent")
        ["/send/text"] =
      (.ok, ["/send/text"]) := by
  refine ⟨?_, ?_, ?_, ?_, ?_⟩
  · exact c7_retry_policy.1 3 _ 404 "nf" (by omega) (by omega) rfl
  · exact c7_retry_policy.2.1 3 _ "unavailable" "sent" (by omega) rfl rfl
  · exact c7_retry_policy.2.2.1 3 _ ⟨true, true, false, "timeout"⟩ "sent" (by omega)
      (by decide) rfl rfl
  · exact c7_retry_policy.2.2.2.1 3 _ "down" (fun j => rfl)
  · exact c7_retry_policy.2.2.2.2 3 _ "/send/text" "unavailable" "sent" (by omega) rfl rfl

/-! ## Theorems: identity extraction -/

theorem takeWhile_append_all (p : Char → Bool) (ds rest : List Char)
    (h : ∀ c ∈ ds, p c = true) :
    (ds ++ rest).takeWhile p = ds ++ rest.takeWhile p := by
  induction ds with
  | nil => simp
  | cons d ds2 ih =>
    have hd : p d = true := h d (by simp)
    simp [List.takeWhile_cons, hd, ih (fun c hc => h c (by simp [hc]))]

/-- The anchored match succeeds on any non-empty digit run followed by any of
the recognized suffixes, extracting exactly the digits. -/
theorem extractCore_digits_suffix (ds : List Char) (suf : String)
    (hsuf : suf ∈ Handlers.jidSuffixes) (hne : ds ≠ [])
    (hdig : ∀ c ∈ ds, Char.isDigit c = true) :
    Handlers.extractCore (String.mk (ds ++ suf.toList)) = some (String.mk ds) := by
  have hsufTake : suf.toList.takeWhile Char.isDigit = [] := by
    fin_cases hsuf <;> decide
  have htake : (ds ++ suf.toList).takeWhile Char.isDigit = ds := by
    rw [takeWhile_append_all Char.isDigit ds suf.toList hdig, hsufTake, List.append_nil]
  have hcont : Handlers.jidSuffixes.contains suf = true := by
    fin_cases hsuf <;> decide
  have hmk : String.mk suf.toList = suf := rfl
  unfold Handlers.extractCore
  simp only [show (String.mk (ds ++ suf.toList)).toList = ds ++ suf.toList from rfl,
    htake, List.drop_left, hmk, hcont, hne]
  simp [hne]

/-! ## Claim C8 -/

/-- C8 counterexample: the extractor accepts the group suffix `@g.us` and the
channel suffix `@newsletter`, yielding identities for them, contrary to the
claim that only "direct chat" suffixes are accepted. -/
theorem c8_group_channel_accepted_cex :
    Handlers.extractPhoneFromJID "123@g.us" = some "123" ∧
    Handlers.extractPhoneFromJID "123@newsletter" = some "123" := by
  decide

/-- C8 (amended): identity extraction accepts exactly a non-empty digit run
followed by one of the four suffixes `@s.whatsapp.net`, `@c.us`, `@g.us`,
`@newsletter` — i.e. direct-chat, group and channel addresses, with the
extracted identity exactly the numeric part — and rejects everything else
(broadcast suffixes, non-numeric prefixes, missing digits). -/
theorem c8_suffix_extraction :
    (∀ (ds : List Char) (suf : String),
        suf ∈ Handlers.jidSuffixes → ds ≠ [] → (∀ c ∈ ds, Char.isDigit c = true) →
        Handlers.extractCore (String.mk (ds ++ suf.toList)) = some (String.mk ds)) ∧
    Handlers.extractPhoneFromJID "5511999@s.whatsapp.net" = some "5511999" ∧
    Handlers.extractPhoneFromJID " 5511999@c.us " = some "5511999" ∧
    Handlers.extractPhoneFromJID "123@g.us" = some "123" ∧
    Handlers.extractPhoneFromJID "123@newsletter" = some "123" ∧
    Handlers.extractPhoneFromJID "123@broadcast" = none ∧
    Handlers.extractPhoneFromJID "abc@c.us" = none ∧
    Handlers.extractPhoneFromJID "@c.us" = none := by
  exact ⟨extractCore_digits_suffix, by decide, by decide, by decide, by decide,
    by decide, by decide, by decide⟩

/-- C8 witness: the general part of `c8_suffix_extraction` applied to the
digits `123` and the suffix `@c.us`. -/
theorem c8_suffix_extraction_witness :
    Handlers.extractCore (String.mk (['1', '2', '3'] ++ "@c.us".toList)) =
      some (String.mk ['1', '2', '3']) :=
  c8_suffix_extraction.1 ['1', '2', '3'] "@c.us" (by decide) (by decide) (by decide)

/-! ## Claim C9 -/

/-- C9 counterexample: a sender already holding handle `"thread_A"` has it
replaced by a later `SetClientThread` with `"thread_B"` — the write is an
unconditional overwrite, not set-once. -/
theorem c9_thread_overwrite_cex :
    Models.SetClientThread [⟨1, "5511", none, some "thread_A"⟩] 1 "thread_B" =
      Except.ok [⟨1, "5511", none, some "thread_B"⟩] ∧
    (some "thread_B" : Option String) ≠ some "thread_A" :=
  ⟨rfl, by decide⟩

/-- C9 (amended): `SetClientThread` overwrites the stored handle
unconditionally (last writer wins), erroring only when the client row is
absent; set-once is not enforced by the store — uniqueness of a sender's
handle relies solely on callers skipping creation when a non-empty handle is
already visible (`ensureThread`), so a second concurrent creator that read a
missing handle replaces the first one's assignment. -/
theorem c9_set_thread_last_writer_wins :
    (∀ (db : List Models.ClientRow) (cid : Nat) (tid : String) (row : Models.ClientRow)
        (db2 : List Models.ClientRow),
        row ∈ db → row.id = cid →
        Models.SetClientThread db cid tid = Except.ok db2 →
        { row with threadID := some tid } ∈ db2) ∧
    (∀ (db : List Models.ClientRow) (cid : Nat) (tid : String),
        (∀ row ∈ db, row.id ≠ cid) →
        Models.SetClientThread db cid tid = Except.error "client not found") ∧
    (∀ (t minted : String), t ≠ "" → Models.ensureThread (some t) minted = (t, false)) := by
  refine ⟨?_, ?_, ?_⟩
  · intro db cid tid row db2 hmem hid hok
    unfold Models.SetClientThread at hok
    split at hok
    · have heq := Except.ok.inj hok
      subst heq
      have hm := List.mem_map_of_mem
        (fun c => if c.id = cid then { c with threadID := some tid } else c) hmem
      simpa [hid] using hm
    · cases hok
  · intro db cid tid h
    have hfalse : db.any (fun c => c.id = cid) = false := by
      simp only [List.any_eq_false, decide_eq_true_eq]
      exact h
    simp [Models.SetClientThread, hfalse]
  · intro t minted h
    simp [Models.ensureThread, h]

/-- C9 witness: the overwrite, the missing-row error, and the caller guard of
`c9_set_thread_last_writer_wins` at concrete rows. -/
theorem c9_set_thread_last_writer_wins_witness :
    (⟨1, "5511", none, some "thread_B"⟩ : Models.ClientRow) ∈
      [(⟨1, "5511", none, some "thread_B"⟩ : Models.ClientRow)] ∧
    Models.SetClientThread [⟨1, "5511", none, some "thread_A"⟩] 2 "thread_B" =
      Except.error "client not found" ∧
    Models.ensureThread (some "thread_A") "thread_B" = ("thread_A", false) := by
  refine ⟨?_, ?_, ?_⟩
  · exact c9_set_thread_last_writer_wins.1 [⟨1, "5511", none, some "thread_A"⟩] 1 "thread_B"
      ⟨1, "5511", none, some "thread_A"⟩ [⟨1, "5511", none, some "thread_B"⟩]
      (by decide) rfl rfl
  · exact c9_set_thread_last_writer_wins.2.1 [⟨1, "5511", none, some "thread_A"⟩] 2 "thread_B"
      (by decide)
  · exact c9_set_thread_last_writer_wins.2.2 "thread_A" "thread_B" (by decide)
